import Mathlib

/-!
Verification of the RAG engine in backend/rag_utils.py.

The Python source is shallowly embedded: pure functions become Lean
functions over String / List Char / Nat / Int / Rat; external effects
(the embedding model, the LLM, the vector store, the filesystem) are
passed in as explicit inputs, so each embedded function is a pure map
from the source's inputs plus the observed behaviour of its
collaborators to the source's outputs.

Because core String operations (toUpper, splitOn, trim, ...) do not
reduce definitionally, the character-level operations the source needs
are re-implemented structurally over List Char, mirroring the Python
string methods they stand for.
-/

/-! ## Character-list string utilities (models of Python str methods) -/

/-- Python str.lower (ASCII case folding). -/
def lowerStr (s : String) : String := ⟨s.data.map Char.toLower⟩

/-- Python str.upper (ASCII case folding). -/
def upperStr (s : String) : String := ⟨s.data.map Char.toUpper⟩

/-- Python str.strip on a character list: drop whitespace at both ends. -/
def trimChars (l : List Char) : List Char :=
  ((l.dropWhile Char.isWhitespace).reverse.dropWhile Char.isWhitespace).reverse

/-- Python str.strip. -/
def trimStr (s : String) : String := ⟨trimChars s.data⟩

/-- Python str.split(c) for a single-character separator: the source only
splits on a comma or a newline. Empty input yields one empty field. -/
def splitOnChar (c : Char) : List Char → List (List Char)
  | [] => [[]]
  | x :: t =>
    let r := splitOnChar c t
    if x = c then [] :: r
    else
      match r with
      | [] => [[x]]
      | h :: t' => (x :: h) :: t'

/-- Python int(x) applied after x.strip().isdigit(): some value exactly when
the character list is nonempty and all digits. -/
def digitsToNat (l : List Char) : Option Nat :=
  if l ≠ [] ∧ l.all Char.isDigit then
    some (l.foldl (fun n c => 10 * n + (c.toNat - '0'.toNat)) 0)
  else none

/-- Concatenation of a list of strings ("".join in Python). -/
def concatStrings : List String → String
  | [] => ""
  | s :: t => s ++ concatStrings t

/-- Python sep.join(parts). -/
def joinWith (sep : String) : List String → String
  | [] => ""
  | [s] => s
  | s :: t => s ++ sep ++ joinWith sep t

/-! ## Config (class Config in rag_utils.py) -/

namespace Config

/-- Config.CHUNK_SIZES together with the .get(content_type, CHUNK_SIZES['default'])
lookup performed by DocumentProcessor.get_adaptive_splitter. -/
def chunkSizeFor (contentType : String) : Nat :=
  if contentType = "default" then 1500
  else if contentType = "technical" then 1200
  else if contentType = "narrative" then 2000
  else if contentType = "structured" then 1000
  else 1500

/-- Config.CHUNK_OVERLAP. -/
def CHUNK_OVERLAP : Nat := 250

/-- Config.SEARCH_K_INITIAL. -/
def SEARCH_K_INITIAL : Nat := 15

/-- Config.SEARCH_K_RERANK. -/
def SEARCH_K_RERANK : Nat := 5

/-- Config.BATCH_SIZE. -/
def BATCH_SIZE : Nat := 100

end Config

/-! ## Data model

Doc models a langchain Document as the engine sees it: page text plus
the metadata dictionary. Metadata fields are Options, mirroring
dictionary lookups with .get defaults; the source reads them with
doc.metadata.get(key, default). tenant_id is the field the spec's data
model requires on every chunk; the source under verification never
writes or reads it, which is exactly what claims C1 and C4 probe. -/

structure DocMeta where
  doc_id : Option String := none
  chunk_index : Option Nat := none
  total_chunks : Option Nat := none
  source_file : Option String := none
  original_filename : Option String := none
  file_type : Option String := none
  content_type : Option String := none
  page : Option Nat := none
  tenant_id : Option String := none
deriving DecidableEq, Repr

structure Doc where
  page_content : String
  metadata : DocMeta
deriving DecidableEq, Repr

/-- Citation dataclass. -/
structure Citation where
  document_name : String
  page_number : Option Nat
  chunk_index : Nat
  relevance_score : ℚ
  content_preview : String
deriving DecidableEq, Repr

/-- SearchResult dataclass. -/
structure SearchResult where
  content : String
  citation : Citation
  metadata : DocMeta
deriving DecidableEq, Repr

/-- One conversation turn, {"role": ..., "content": ...}. -/
structure Turn where
  role : String
  content : String
deriving DecidableEq, Repr

/-! ## DocumentProcessor.detect_content_type -/

/-- One match of the MULTILINE pattern \s*[\d\-\*•]\s+ at a line start:
optional leading whitespace, a digit/dash/star/bullet marker, then at
least one whitespace character. -/
def isListLine (l : List Char) : Bool :=
  match l.dropWhile Char.isWhitespace with
  | c :: d :: _ => (c.isDigit || c = '-' || c = '*' || c = '•') && d.isWhitespace
  | _ => false

/-- One match of the MULTILINE pattern #+\s+ at a line start. -/
def isHeadingLine (l : List Char) : Bool :=
  match l with
  | '#' :: rest =>
    match rest.dropWhile (· = '#') with
    | d :: _ => d.isWhitespace
    | [] => false
  | _ => false

/-- Non-overlapping occurrence count of a pattern in a character list
(re.findall on a literal pattern), driven by a fuel argument so the
definition is structural; fuel = list length always suffices since every
step consumes at least one character. -/
def countOccsFuel : Nat → List Char → List Char → Nat
  | 0, _, _ => 0
  | _, _, [] => 0
  | fuel + 1, pat, c :: t =>
    if pat ≠ [] ∧ pat.isPrefixOf (c :: t) then
      1 + countOccsFuel fuel pat (t.drop (pat.length - 1))
    else
      countOccsFuel fuel pat t

/-- Non-overlapping occurrence count of a pattern. -/
def countOccs (pat : List Char) (s : List Char) : Nat :=
  countOccsFuel s.length pat s

/-- DocumentProcessor.detect_content_type. The three regex counts are
modelled on the split lines (for the two MULTILINE line-anchored
patterns) and on the lowercased text (for the IGNORECASE alternation,
whose alternatives cannot overlap each other and are counted per
pattern). Float threshold comparisons such as count > total * 0.1 are
expressed by exact cross-multiplication. -/
def detect_content_type (text : String) : String :=
  let ls := splitOnChar '\n' text.data
  let list_pattern := (ls.filter isListLine).length
  let heading_pattern := (ls.filter isHeadingLine).length
  let lower := (lowerStr text).data
  let code_pattern :=
    countOccs ['`', '`', '`'] lower + countOccs ['d', 'e', 'f', ' '] lower +
      countOccs ['c', 'l', 'a', 's', 's', ' '] lower +
      countOccs ['f', 'u', 'n', 'c', 't', 'i', 'o', 'n', ' '] lower
  let total_lines := ls.length
  if code_pattern * 10 > total_lines then "technical"
  else if (list_pattern + heading_pattern) * 5 > total_lines then "structured"
  else if heading_pattern * 100 > total_lines * 15 then "structured"
  else "narrative"

/-- Claim C9 counterexample: on empty input detect_content_type returns
"narrative", not the category "default" the claim requires. -/
theorem detect_content_type_empty_not_default :
    detect_content_type "" = "narrative" ∧ detect_content_type "" ≠ "default" := by
  constructor
  · rfl
  · decide

/-- Claim C9 (amended): detect_content_type is a total function whose result
is always one of the three categories technical/structured/narrative (hence
always inside the four-element category set), and on empty input the result
is "narrative" rather than "default". -/
theorem detect_content_type_total (text : String) :
    (detect_content_type text = "technical" ∨ detect_content_type text = "structured" ∨
      detect_content_type text = "narrative") ∧ detect_content_type "" = "narrative" := by
  refine ⟨?_, rfl⟩
  unfold detect_content_type
  dsimp only
  split
  · exact Or.inl rfl
  · split
    · exact Or.inr (Or.inl rfl)
    · split
      · exact Or.inr (Or.inl rfl)
      · exact Or.inr (Or.inr rfl)

/-! ## Recursive text splitter (C7)

Modelled from the spec: the splitting algorithm itself lives in the
langchain RecursiveCharacterTextSplitter package, which is not part of
this repository; only its configuration (the separator priority list
and the chunk size) appears in DocumentProcessor.get_adaptive_splitter.
Following the spec's description, a chunk is cut at the last occurrence
within the target window of the highest-priority separator that occurs
there — paragraph break, then line break, then sentence end, then word
boundary — and only when none occurs is a raw character cut made. The
separator values are the source's: "\n\n", "\n", ". ", " ", with ""
(raw character cut) as the final fallback. -/

/-- Paragraph separator "\n\n". -/
def PARA_SEP : List Char := ['\n', '\n']

/-- Line separator "\n". -/
def LINE_SEP : List Char := ['\n']

/-- Sentence separator ". ". -/
def SENT_SEP : List Char := ['.', ' ']

/-- Word separator " ". -/
def WORD_SEP : List Char := [' ']

/-- The separator priority list of get_adaptive_splitter, minus the final
raw-cut fallback "". -/
def SEPS : List (List Char) := [PARA_SEP, LINE_SEP, SENT_SEP, WORD_SEP]

/-- Largest position j with 1 ≤ j ≤ bound at which the separator occurs
(is a prefix of the text dropped by j), if any. -/
def lastOcc (sep text : List Char) : Nat → Option Nat
  | 0 => none
  | b + 1 =>
    if sep.isPrefixOf (text.drop (b + 1)) then some (b + 1)
    else lastOcc sep text b

theorem lastOcc_eq_some {sep text : List Char} {b i : Nat}
    (h : lastOcc sep text b = some i) :
    1 ≤ i ∧ i ≤ b ∧ sep.isPrefixOf (text.drop i) = true := by
  induction b with
  | zero => simp [lastOcc] at h
  | succ b ih =>
    unfold lastOcc at h
    split at h
    · cases h
      exact ⟨by omega, by omega, by assumption⟩
    · obtain ⟨h1, h2, h3⟩ := ih h
      exact ⟨h1, by omega, h3⟩

theorem lastOcc_eq_none {sep text : List Char} {b : Nat}
    (h : lastOcc sep text b = none) :
    ∀ j, 1 ≤ j → j ≤ b → ¬ sep.isPrefixOf (text.drop j) = true := by
  induction b with
  | zero => intro j h1 h2; omega
  | succ b ih =>
    unfold lastOcc at h
    split at h
    · cases h
    · intro j h1 h2
      rcases Nat.lt_or_ge j (b + 1) with hj | hj
      · exact ih h j h1 (by omega)
      · have : j = b + 1 := by omega
        subst this
        simpa using ‹¬ sep.isPrefixOf (text.drop (b + 1)) = true›

/-- The cut position chosen for an over-long text: the last in-window
occurrence of the first separator in priority order that occurs in the
window. -/
def bestCut (cs : Nat) (text : List Char) : Option Nat :=
  match lastOcc PARA_SEP text cs with
  | some i => some i
  | none =>
    match lastOcc LINE_SEP text cs with
    | some i => some i
    | none =>
      match lastOcc SENT_SEP text cs with
      | some i => some i
      | none => lastOcc WORD_SEP text cs

theorem bestCut_eq_some {cs : Nat} {text : List Char} {i : Nat}
    (h : bestCut cs text = some i) :
    ∃ sep ∈ SEPS, lastOcc sep text cs = some i := by
  unfold bestCut at h
  split at h
  · exact ⟨PARA_SEP, by simp [SEPS], by rw [← h]; assumption⟩
  · split at h
    · exact ⟨LINE_SEP, by simp [SEPS], by rw [← h]; assumption⟩
    · split at h
      · exact ⟨SENT_SEP, by simp [SEPS], by rw [← h]; assumption⟩
      · exact ⟨WORD_SEP, by simp [SEPS], h⟩

theorem bestCut_pos {cs : Nat} {text : List Char} {i : Nat}
    (h : bestCut cs text = some i) : 1 ≤ i ∧ i ≤ cs := by
  obtain ⟨sep, _, hs⟩ := bestCut_eq_some h
  obtain ⟨h1, h2, _⟩ := lastOcc_eq_some hs
  exact ⟨h1, h2⟩

theorem bestCut_eq_none {cs : Nat} {text : List Char}
    (h : bestCut cs text = none) :
    ∀ sep ∈ SEPS, lastOcc sep text cs = none := by
  intro sep hsep
  revert h
  unfold bestCut
  cases hp : lastOcc PARA_SEP text cs with
  | some i => intro h; cases h
  | none =>
    cases hl : lastOcc LINE_SEP text cs with
    | some i => intro h; cases h
    | none =>
      cases hs : lastOcc SENT_SEP text cs with
      | some i => intro h; cases h
      | none =>
        intro h
        simp only [SEPS, List.mem_cons, List.not_mem_nil, or_false] at hsep
        rcases hsep with rfl | rfl | rfl | rfl
        · exact hp
        · exact hl
        · exact hs
        · exact h

/-- The position of the next cut for an over-long text: the bestCut
separator position when one exists, the raw window edge otherwise
(max 1 cs keeps the cut positive, and equals cs whenever cs ≥ 1). -/
def cutPos (cs : Nat) (text : List Char) : Nat :=
  match bestCut cs text with
  | some i => i
  | none => max 1 cs

theorem cutPos_pos (cs : Nat) (text : List Char) : 1 ≤ cutPos cs text := by
  unfold cutPos
  cases h : bestCut cs text with
  | some i => exact (bestCut_pos h).1
  | none =>
    show 1 ≤ max 1 cs
    omega

theorem cutPos_le (cs : Nat) (text : List Char) (hcs : 1 ≤ cs) :
    cutPos cs text ≤ cs := by
  unfold cutPos
  cases h : bestCut cs text with
  | some i => exact (bestCut_pos h).2
  | none =>
    show max 1 cs ≤ cs
    omega

/-- The recursive splitter, modelled from the spec with the source's
separator priority list. A text within the window is one chunk;
otherwise the first chunk ends at cutPos and the remainder is split
recursively. -/
def chunkSplit (cs : Nat) (text : List Char) : List (List Char) :=
  if text = [] then []
  else if text.length ≤ cs then [text]
  else text.take (cutPos cs text) :: chunkSplit cs (text.drop (cutPos cs text))
termination_by text.length
decreasing_by
  have := cutPos_pos cs text
  simp only [List.length_drop]
  omega

/-- A separator occurrence starts exactly at position i of the text. -/
def SepAt (text : List Char) (i : Nat) : Prop :=
  ∃ sep ∈ SEPS, sep.isPrefixOf (text.drop i) = true

/-- No separator occurrence starts at any positive in-window position. -/
def NoSepInWindow (cs : Nat) (text : List Char) : Prop :=
  ∀ sep ∈ SEPS, ∀ j, 1 ≤ j → j ≤ cs → ¬ sep.isPrefixOf (text.drop j) = true

/-- Every chunk boundary of the splitting (each chunk except the last)
falls on a separator occurrence — a paragraph, line, sentence or word
boundary, never the middle of a word — unless no separator occurs
anywhere in the target window. -/
def GoodChunks (cs : Nat) : List Char → List (List Char) → Prop
  | _, [] => True
  | text, c :: rest =>
    (rest = [] ∨ SepAt text c.length ∨ NoSepInWindow cs text) ∧
      GoodChunks cs (text.drop c.length) rest

/-- Claim C7: splitting tries paragraph, then line, then sentence, then
word separators, and only falls back to a raw character cut when none of
them occurs in the target window: no produced chunk is cut mid-word while
a paragraph-, sentence-, or word-level split point exists in the window. -/
theorem chunkSplit_good (cs : Nat) (hcs : 1 ≤ cs) (text : List Char) :
    GoodChunks cs text (chunkSplit cs text) := by
  suffices H : ∀ n text, List.length text = n → GoodChunks cs text (chunkSplit cs text) from
    H text.length text rfl
  intro n
  induction n using Nat.strong_induction_on with
  | _ n ih =>
    intro text hlen
    rw [chunkSplit]
    by_cases h0 : text = []
    · simp [h0, GoodChunks]
    · by_cases h1 : text.length ≤ cs
      · simp only [h0, if_neg, h1, if_pos]
        exact ⟨Or.inl rfl, trivial⟩
      · simp only [h0, h1, if_neg]
        have hlt : cs < text.length := Nat.lt_of_not_le h1
        have hcp1 := cutPos_pos cs text
        have hcp2 := cutPos_le cs text hcs
        have htake : (text.take (cutPos cs text)).length = cutPos cs text := by
          simp only [List.length_take]
          omega
        refine ⟨Or.inr ?_, ?_⟩
        · rw [htake]
          cases h2 : bestCut cs text with
          | some i =>
            left
            obtain ⟨sep, hmem, hs⟩ := bestCut_eq_some h2
            obtain ⟨_, _, hpre⟩ := lastOcc_eq_some hs
            have : cutPos cs text = i := by simp [cutPos, h2]
            rw [this]
            exact ⟨sep, hmem, hpre⟩
          | none =>
            right
            intro sep hsep j hj1 hj2
            exact lastOcc_eq_none (bestCut_eq_none h2 sep hsep) j hj1 hj2
        · rw [htake]
          exact ih (text.drop (cutPos cs text)).length
            (by simp only [List.length_drop]; omega) _ rfl

/-- Witness for C7 at a concrete chunk size and text. -/
theorem chunkSplit_good_witness :
    1 ≤ 5 ∧ GoodChunks 5 "hello world, a test".data (chunkSplit 5 "hello world, a test".data) :=
  ⟨by decide, chunkSplit_good 5 (by decide) "hello world, a test".data⟩

/-! ## Document loading, chunking and indexing (C3, C8) -/

/-- A page as returned by the langchain loader: extracted text plus the
optional pdf page number metadata. -/
structure Page where
  page_content : String
  page : Option Nat
deriving DecidableEq, Repr

/-- The original-filename extraction of chunk_documents: os.path.basename,
then, when the basename contains an underscore and the part before the
first underscore is 36 characters (a UUID), strip that prefix. -/
def originalName (file_path : String) : String :=
  let name := (splitOnChar '/' file_path.data).getLastD []
  let pre := name.takeWhile (· ≠ '_')
  if pre.length < name.length ∧ pre.length = 36 then
    String.mk (name.drop (pre.length + 1))
  else String.mk name

/-- DocumentProcessor.chunk_documents: join all page text to detect the
content type, split every page with the adaptive splitter, then stamp
each chunk with its metadata. The langchain split_documents call splits
each page separately, carrying the page metadata over; the MD5-based
doc_id (hashlib.md5(file_path).hexdigest()[:8]) is supplied as the
function parameter md5hex8. -/
def chunk_documents (md5hex8 : String → String) (documents : List Page)
    (file_path : String) (file_type : String) : List Doc :=
  let full_text := joinWith "\n\n" (documents.map (·.page_content))
  let content_type := detect_content_type full_text
  let size := Config.chunkSizeFor content_type
  let pieces :=
    (documents.map (fun pg =>
      (chunkSplit size pg.page_content.data).map (fun c => (String.mk c, pg.page)))).flatten
  let original_name := originalName file_path
  let total := pieces.length
  pieces.enum.map (fun p =>
    { page_content := p.2.1
      metadata :=
        { chunk_index := some p.1
          total_chunks := some total
          source_file := some file_path
          original_filename := some original_name
          file_type := some file_type
          content_type := some content_type
          doc_id := some (md5hex8 file_path)
          page := p.2.2
          tenant_id := none } })

/-- The file types DocumentProcessor.load_document has a loader for. -/
def supportedType (t : String) : Prop :=
  lowerStr t = "pdf" ∨ lowerStr t = "docx" ∨ lowerStr t = "doc" ∨ lowerStr t = "txt"

instance : DecidablePred supportedType := fun t => by
  unfold supportedType
  infer_instance

/-- DocumentProcessor.load_document: raise ValueError for an unsupported
file type, otherwise return what the format-specific loader extracted
(supplied as the external input loaded). -/
def load_document (file_type : String) (loaded : List Page) : Except String (List Page) :=
  if supportedType file_type then Except.ok loaded
  else Except.error ("Unsupported file type: " ++ file_type)

/-- The result dictionary of process_document (the wall-clock
processing_time entry has no place in a pure embedding and is omitted). -/
structure ProcessResult where
  success : Bool
  message : String
  num_chunks : Nat
deriving DecidableEq, Repr

/-- File-type auto-detection at the top of process_document: a missing or
empty file_type argument falls back to the path extension (pathExt models
os.path.splitext(file_path)[1].lower().replace('.', '')). -/
def resolveFileType (file_type : Option String) (pathExt : String) : String :=
  match file_type with
  | some t => if t = "" then pathExt else t
  | none => pathExt

/-- Fixed-size batching of chunks (chunks[i:i+BATCH_SIZE] for i in
range(0, total, BATCH_SIZE)), fuelled by the list length so the
definition is structural. -/
def chunkBatchesFuel : Nat → List Doc → List (List Doc)
  | 0, _ => []
  | _, [] => []
  | fuel + 1, c :: t =>
    (c :: t).take Config.BATCH_SIZE :: chunkBatchesFuel fuel ((c :: t).drop Config.BATCH_SIZE)

/-- The batches index_chunks builds. -/
def chunkBatches (chunks : List Doc) : List (List Doc) :=
  chunkBatchesFuel chunks.length chunks

/-- DocumentProcessor.index_chunks. Whether each batch's add_documents
call raises is an external outcome, supplied as batchFails. The source
computes the per-batch success flags and their count (printed as the
progress summary) but returns total, the number of chunks submitted,
regardless of any failure. -/
def index_chunks (batchFails : Nat → Bool) (chunks : List Doc) : Nat :=
  if chunks = [] then 0
  else
    let total := chunks.length
    let results := (chunkBatches chunks).enum.map (fun b => !batchFails b.1)
    let _success_count := (results.filter (· = true)).length
    total

/-- The count claim C3 says index_chunks reports: chunks belonging to
successfully upserted batches only (stated from the spec, for comparison
with the source's return value). -/
def chunksInSuccessfulBatches (batchFails : Nat → Bool) (chunks : List Doc) : Nat :=
  (((chunkBatches chunks).enum.filter (fun b => !batchFails b.1)).map
    (fun b => b.2.length)).sum

/-- process_document. The loader's extraction result and the per-batch
indexing outcomes are external inputs; everything else follows the
source: unsupported type and loader errors are caught into a
success=false result, empty extraction returns success=false, otherwise
the chunks are indexed and the return of index_chunks is reported. -/
def process_document (md5hex8 : String → String) (batchFails : Nat → Bool)
    (file_path : String) (file_type : Option String) (pathExt : String)
    (loaded : List Page) : ProcessResult :=
  match load_document (resolveFileType file_type pathExt) loaded with
  | Except.error e => { success := false, message := "Error: " ++ e, num_chunks := 0 }
  | Except.ok docs =>
    if docs = [] then
      { success := false, message := "No content extracted from document", num_chunks := 0 }
    else
      let n := index_chunks batchFails
        (chunk_documents md5hex8 docs file_path (resolveFileType file_type pathExt))
      { success := true
        message := "Processed " ++ toString n ++ " chunks"
        num_chunks := n }

theorem error_message_nonempty (s : String) : ("Error: " ++ s) ≠ "" := by
  intro h
  have h2 := congrArg String.length h
  rw [String.length_append] at h2
  have h3 : ("Error: " : String).length = 7 := rfl
  have h4 : ("" : String).length = 0 := rfl
  omega

/-- Claim C8: for the expected failure modes — unsupported file type, or a
document from which no content was extracted — process_document returns a
structured result with success=false, a nonempty human-readable message and
num_chunks=0 instead of propagating an exception. -/
theorem process_document_expected_failures
    (md5hex8 : String → String) (batchFails : Nat → Bool)
    (file_path : String) (file_type : Option String) (pathExt : String)
    (loaded : List Page)
    (h : ¬ supportedType (resolveFileType file_type pathExt) ∨ loaded = []) :
    (process_document md5hex8 batchFails file_path file_type pathExt loaded).success = false ∧
    (process_document md5hex8 batchFails file_path file_type pathExt loaded).message ≠ "" ∧
    (process_document md5hex8 batchFails file_path file_type pathExt loaded).num_chunks = 0 := by
  unfold process_document
  cases hld : load_document (resolveFileType file_type pathExt) loaded with
  | error e =>
    exact ⟨rfl, error_message_nonempty e, rfl⟩
  | ok docs =>
    by_cases hs : supportedType (resolveFileType file_type pathExt)
    · have hdocs : docs = loaded := by
        unfold load_document at hld
        rw [if_pos hs] at hld
        injection hld with h2
        exact h2.symm
      have hnil : docs = [] := by
        rcases h with h | h
        · exact absurd hs h
        · rw [hdocs, h]
      dsimp only
      rw [if_pos hnil]
      refine ⟨rfl, ?_, rfl⟩
      decide
    · exfalso
      unfold load_document at hld
      rw [if_neg hs] at hld
      cases hld

/-- Witness for C8 at a concrete unsupported file type. -/
theorem process_document_expected_failures_witness :
    (¬ supportedType (resolveFileType none "exe") ∨ ([⟨"hi", none⟩] : List Page) = []) ∧
    ((process_document id (fun _ => false) "u/f.exe" none "exe" [⟨"hi", none⟩]).success = false ∧
      (process_document id (fun _ => false) "u/f.exe" none "exe" [⟨"hi", none⟩]).message ≠ "" ∧
      (process_document id (fun _ => false) "u/f.exe" none "exe" [⟨"hi", none⟩]).num_chunks = 0) :=
  ⟨Or.inl (by decide),
    process_document_expected_failures id (fun _ => false) "u/f.exe" none "exe" [⟨"hi", none⟩]
      (Or.inl (by decide))⟩

/-- A minimal chunk used in concrete evaluations. -/
def sampleDoc : Doc := { page_content := "x", metadata := {} }

set_option maxRecDepth 8000 in
/-- Claim C3 contradicted by the code: index_chunks returns the total
number of chunks submitted whatever the batch outcomes were; at the
failing input of 150 chunks whose second batch fails it still returns
150, although only 100 chunks belong to successfully upserted batches,
so the return is not strictly less than the submitted total as the
claim requires. -/
theorem index_chunks_returns_total_despite_failures :
    (∀ (batchFails : Nat → Bool) (chunks : List Doc),
      index_chunks batchFails chunks = if chunks = [] then 0 else chunks.length) ∧
    index_chunks (fun i => decide (i = 1)) (List.replicate 150 sampleDoc) = 150 ∧
    chunksInSuccessfulBatches (fun i => decide (i = 1)) (List.replicate 150 sampleDoc) = 100 ∧
    ¬ index_chunks (fun i => decide (i = 1)) (List.replicate 150 sampleDoc) <
        (List.replicate 150 sampleDoc).length := by
  have h1 : index_chunks (fun i => decide (i = 1)) (List.replicate 150 sampleDoc) = 150 := by
    decide
  have h2 : chunksInSuccessfulBatches (fun i => decide (i = 1))
      (List.replicate 150 sampleDoc) = 100 := by
    decide
  refine ⟨fun batchFails chunks => rfl, h1, h2, ?_⟩
  rw [h1, List.length_replicate]
  omega

/-! ## SearchEngine: merge, re-ranking and search (C1, C5, C6) -/

/-- The dictionary key of the merge step of SearchEngine.search:
doc_id + "_" + chunk_index with the source's .get defaults. -/
def mergeKey (d : Doc) : String :=
  d.metadata.doc_id.getD "unknown" ++ "_" ++ toString (d.metadata.chunk_index.getD 0)

/-- The insertion-ordered dictionary update all_results[key] = (doc, score),
performed when the key is absent (append) or the new score is strictly
smaller (in-place update; Python dicts keep the original insertion
position on update). -/
def upsertResult : List (String × Doc × ℚ) → Doc → ℚ → List (String × Doc × ℚ)
  | [], d, s => [(mergeKey d, d, s)]
  | (k', d', s') :: rest, d, s =>
    if mergeKey d = k' then
      if s < s' then (k', d, s) :: rest else (k', d', s') :: rest
    else
      (k', d', s') :: upsertResult rest d s

/-- One iteration of the inner merge loop. -/
def mergeStep (m : List (String × Doc × ℚ)) (p : Doc × ℚ) : List (String × Doc × ℚ) :=
  upsertResult m p.1 p.2

/-- The merge loop of SearchEngine.search over the per-expanded-query
similarity results, flattened in loop order into one entry list. -/
def mergeResults (entries : List (Doc × ℚ)) : List (String × Doc × ℚ) :=
  entries.foldl mergeStep []

/-- Dictionary lookup by key. -/
def lookupKey (k : String) : List (String × Doc × ℚ) → Option (Doc × ℚ)
  | [] => none
  | (k', v) :: t => if k' = k then some v else lookupKey k t

theorem lookupKey_upsertResult (m : List (String × Doc × ℚ)) (d : Doc) (s : ℚ) (k : String) :
    lookupKey k (upsertResult m d s) =
      if mergeKey d = k then
        match lookupKey k m with
        | none => some (d, s)
        | some (d', s') => if s < s' then some (d, s) else some (d', s')
      else lookupKey k m := by
  induction m with
  | nil =>
    by_cases hk : mergeKey d = k <;> simp [upsertResult, lookupKey, hk]
  | cons p t ih =>
    obtain ⟨k', d', s'⟩ := p
    by_cases h1 : mergeKey d = k'
    · by_cases hk : k' = k
      · subst hk
        by_cases hss : s < s' <;>
          simp [upsertResult, lookupKey, h1, hss]
      · have h2 : ¬ mergeKey d = k := by
          rw [h1]
          exact hk
        by_cases hss : s < s' <;>
          simp [upsertResult, lookupKey, h1, hk, h2, hss]
    · by_cases hk : k' = k
      · subst hk
        simp [upsertResult, lookupKey, h1]
      · simp [upsertResult, lookupKey, h1, hk, ih]

theorem upsertResult_keys_of_hit {k' : String} {d' : Doc} {s' : ℚ}
    (t : List (String × Doc × ℚ)) (d : Doc) (s : ℚ) (h1 : mergeKey d = k') :
    (upsertResult ((k', d', s') :: t) d s).map Prod.fst = k' :: t.map Prod.fst := by
  by_cases hss : s < s' <;> simp [upsertResult, h1, hss]

theorem upsertResult_cons_of_miss {k' : String} {d' : Doc} {s' : ℚ}
    (t : List (String × Doc × ℚ)) (d : Doc) (s : ℚ) (h1 : ¬ mergeKey d = k') :
    upsertResult ((k', d', s') :: t) d s = (k', d', s') :: upsertResult t d s := by
  simp [upsertResult, h1]

theorem mem_keys_upsertResult (m : List (String × Doc × ℚ)) (d : Doc) (s : ℚ) (k : String) :
    k ∈ (upsertResult m d s).map Prod.fst ↔
      k ∈ m.map Prod.fst ∨ k = mergeKey d := by
  induction m with
  | nil => simp [upsertResult]
  | cons p t ih =>
    obtain ⟨k', d', s'⟩ := p
    by_cases h1 : mergeKey d = k'
    · rw [upsertResult_keys_of_hit t d s h1]
      simp only [List.map_cons, List.mem_cons]
      constructor
      · exact fun h => Or.inl h
      · rintro (h | rfl)
        · exact h
        · exact Or.inl h1
    · rw [upsertResult_cons_of_miss t d s h1]
      simp only [List.map_cons, List.mem_cons, ih]
      tauto

theorem nodup_keys_upsertResult (m : List (String × Doc × ℚ)) (d : Doc) (s : ℚ)
    (h : (m.map Prod.fst).Nodup) :
    ((upsertResult m d s).map Prod.fst).Nodup := by
  induction m with
  | nil => simp [upsertResult]
  | cons p t ih =>
    obtain ⟨k', d', s'⟩ := p
    by_cases h1 : mergeKey d = k'
    · rw [upsertResult_keys_of_hit t d s h1]
      exact h
    · rw [upsertResult_cons_of_miss t d s h1]
      rw [List.map_cons, List.nodup_cons] at h ⊢
      refine ⟨?_, ih h.2⟩
      rw [mem_keys_upsertResult]
      rintro (hmem | rfl)
      · exact h.1 hmem
      · exact h1 rfl

theorem upsert_choice_isSome (o : Option (Doc × ℚ)) (d : Doc) (s : ℚ) :
    (match o with
      | none => some (d, s)
      | some (d', s') => if s < s' then some (d, s) else some (d', s')).isSome = true := by
  cases o with
  | none => rfl
  | some v =>
    obtain ⟨d', s'⟩ := v
    by_cases hss : s < s' <;> simp [hss]

theorem nodup_keys_foldl (es : List (Doc × ℚ)) :
    ∀ m, (m.map Prod.fst).Nodup → ((es.foldl mergeStep m).map Prod.fst).Nodup := by
  induction es with
  | nil => intro m h; simpa using h
  | cons p t ih =>
    intro m h
    rw [List.foldl_cons]
    exact ih (mergeStep m p) (nodup_keys_upsertResult m p.1 p.2 h)

theorem lookupKey_isSome_foldl (es : List (Doc × ℚ)) :
    ∀ m k, ((∃ p ∈ es, mergeKey p.1 = k) ∨ (lookupKey k m).isSome = true) →
      (lookupKey k (es.foldl mergeStep m)).isSome = true := by
  induction es with
  | nil =>
    intro m k h
    rcases h with ⟨p, hp, _⟩ | h
    · cases hp
    · simpa using h
  | cons p t ih =>
    intro m k h
    rw [List.foldl_cons]
    apply ih
    rcases h with ⟨q, hq, hk⟩ | hsome
    · rcases List.mem_cons.mp hq with rfl | hq'
      · right
        simp only [mergeStep]
        rw [lookupKey_upsertResult, if_pos hk]
        exact upsert_choice_isSome _ _ _
      · exact Or.inl ⟨q, hq', hk⟩
    · right
      simp only [mergeStep]
      rw [lookupKey_upsertResult]
      by_cases hk : mergeKey p.1 = k
      · rw [if_pos hk]
        exact upsert_choice_isSome _ _ _
      · rw [if_neg hk]
        exact hsome

theorem lookupKey_foldl_provenance (es : List (Doc × ℚ)) :
    ∀ m k d s, lookupKey k (es.foldl mergeStep m) = some (d, s) →
      lookupKey k m = some (d, s) ∨
        (mergeKey d = k ∧ ∃ d₁, (d₁, s) ∈ es ∧ mergeKey d₁ = k) := by
  induction es with
  | nil => intro m k d s h; exact Or.inl h
  | cons p t ih =>
    intro m k d s h
    rw [List.foldl_cons] at h
    rcases ih (mergeStep m p) k d s h with h2 | h2
    · simp only [mergeStep] at h2
      rw [lookupKey_upsertResult] at h2
      by_cases hk : mergeKey p.1 = k
      · rw [if_pos hk] at h2
        cases hm : lookupKey k m with
        | none =>
          rw [hm] at h2
          injection h2 with h3
          cases h3
          refine Or.inr ⟨hk, p.1, ?_, hk⟩
          simp
        | some v =>
          obtain ⟨d', s'⟩ := v
          rw [hm] at h2
          dsimp only at h2
          by_cases hss : p.2 < s'
          · rw [if_pos hss] at h2
            injection h2 with h3
            cases h3
            refine Or.inr ⟨hk, p.1, ?_, hk⟩
            simp
          · rw [if_neg hss] at h2
            exact Or.inl h2
      · rw [if_neg hk] at h2
        exact Or.inl h2
    · obtain ⟨hdk, d₁, hd₁, hk₁⟩ := h2
      exact Or.inr ⟨hdk, d₁, List.mem_cons_of_mem p hd₁, hk₁⟩

theorem lookupKey_mergeStep_le {m : List (String × Doc × ℚ)} {p : Doc × ℚ} {k : String}
    {d : Doc} {s : ℚ} (hk : mergeKey p.1 = k)
    (h : lookupKey k (mergeStep m p) = some (d, s)) : s ≤ p.2 := by
  simp only [mergeStep] at h
  rw [lookupKey_upsertResult, if_pos hk] at h
  cases hm : lookupKey k m with
  | none =>
    rw [hm] at h
    injection h with h3
    cases h3
    exact le_rfl
  | some v =>
    obtain ⟨d', s'⟩ := v
    rw [hm] at h
    dsimp only at h
    by_cases hss : p.2 < s'
    · rw [if_pos hss] at h
      injection h with h3
      cases h3
      exact le_rfl
    · rw [if_neg hss] at h
      injection h with h3
      cases h3
      exact le_of_not_lt hss

theorem lookupKey_mergeStep_mono {m : List (String × Doc × ℚ)} (p : Doc × ℚ) {k : String}
    {d₀ : Doc} {s₀ : ℚ} (h0 : lookupKey k m = some (d₀, s₀)) :
    ∃ d₁ s₁, lookupKey k (mergeStep m p) = some (d₁, s₁) ∧ s₁ ≤ s₀ := by
  simp only [mergeStep]
  rw [lookupKey_upsertResult]
  by_cases hk : mergeKey p.1 = k
  · rw [if_pos hk, h0]
    dsimp only
    by_cases hss : p.2 < s₀
    · rw [if_pos hss]
      exact ⟨p.1, p.2, rfl, le_of_lt hss⟩
    · rw [if_neg hss]
      exact ⟨d₀, s₀, rfl, le_rfl⟩
  · rw [if_neg hk, h0]
    exact ⟨d₀, s₀, rfl, le_rfl⟩

theorem lookupKey_foldl_mono (es : List (Doc × ℚ)) :
    ∀ m k d₀ s₀, lookupKey k m = some (d₀, s₀) →
      ∃ d₁ s₁, lookupKey k (es.foldl mergeStep m) = some (d₁, s₁) ∧ s₁ ≤ s₀ := by
  induction es with
  | nil => intro m k d₀ s₀ h; exact ⟨d₀, s₀, h, le_rfl⟩
  | cons p t ih =>
    intro m k d₀ s₀ h
    rw [List.foldl_cons]
    obtain ⟨d₁, s₁, h1, hle1⟩ := lookupKey_mergeStep_mono p h
    obtain ⟨d₂, s₂, h2, hle2⟩ := ih (mergeStep m p) k d₁ s₁ h1
    exact ⟨d₂, s₂, h2, hle2.trans hle1⟩

theorem lookupKey_foldl_min (es : List (Doc × ℚ)) :
    ∀ m k d s, lookupKey k (es.foldl mergeStep m) = some (d, s) →
      ∀ d₂ s₂, (d₂, s₂) ∈ es → mergeKey d₂ = k → s ≤ s₂ := by
  induction es with
  | nil => intro m k d s h d₂ s₂ hmem; cases hmem
  | cons p t ih =>
    intro m k d s h d₂ s₂ hmem hk2
    rw [List.foldl_cons] at h
    rcases List.mem_cons.mp hmem with heq | hmem'
    · subst heq
      have hsome : (lookupKey k (mergeStep m (d₂, s₂))).isSome = true := by
        simp only [mergeStep]
        rw [lookupKey_upsertResult, if_pos hk2]
        exact upsert_choice_isSome _ _ _
      obtain ⟨⟨d₁, s₁⟩, h1⟩ := Option.isSome_iff_exists.mp hsome
      have hb : s₁ ≤ s₂ := lookupKey_mergeStep_le (p := ((d₂ : Doc), s₂)) hk2 h1
      obtain ⟨d₃, s₃, h3, hle3⟩ := lookupKey_foldl_mono t (mergeStep m (d₂, s₂)) k d₁ s₁ h1
      have h4 := h3.symm.trans h
      injection h4 with h5
      cases h5
      exact le_trans hle3 hb
    · exact ih (mergeStep m p) k d s h d₂ s₂ hmem' hk2

/-- Claim C6: the merge step of SearchEngine.search keys candidates by the
stable chunk identity doc_id + chunk_index; the merged candidate map holds
each key at most once (its key list is duplicate-free), and whenever some
entry with key k occurs among the per-query results, the map holds exactly
one candidate under k, whose score is one of that key's scores and is the
best (lowest-distance) of them. -/
theorem merge_dedup_best_score (entries : List (Doc × ℚ)) (k : String) (d₀ : Doc) (s₀ : ℚ)
    (hmem : (d₀, s₀) ∈ entries) (hkey : mergeKey d₀ = k) :
    ((mergeResults entries).map Prod.fst).Nodup ∧
    ∃ d s, lookupKey k (mergeResults entries) = some (d, s) ∧ mergeKey d = k ∧
      (∃ d₁, (d₁, s) ∈ entries ∧ mergeKey d₁ = k) ∧
      ∀ d₂ s₂, (d₂, s₂) ∈ entries → mergeKey d₂ = k → s ≤ s₂ := by
  constructor
  · exact nodup_keys_foldl entries [] (by simp)
  · have hsome := lookupKey_isSome_foldl entries [] k (Or.inl ⟨(d₀, s₀), hmem, hkey⟩)
    obtain ⟨⟨d, s⟩, hds⟩ := Option.isSome_iff_exists.mp hsome
    have hprov := lookupKey_foldl_provenance entries [] k d s hds
    rcases hprov with hbad | hgood
    · simp [lookupKey] at hbad
    · exact ⟨d, s, hds, hgood.1, hgood.2, lookupKey_foldl_min entries [] k d s hds⟩

/-- A concrete chunk used by the C6 witness. -/
def docA1 : Doc :=
  { page_content := "alpha chunk", metadata := { doc_id := some "aaaaaaaa", chunk_index := some 0 } }

/-- Witness for C6: the same chunk retrieved under two expanded queries
with scores 7 and 3 is merged into one entry carrying score 3. -/
theorem merge_dedup_best_score_witness :
    ((docA1, (7:ℚ)) ∈ [(docA1, (7:ℚ)), (docA1, (3:ℚ))] ∧ mergeKey docA1 = "aaaaaaaa_0") ∧
    (((mergeResults [(docA1, (7:ℚ)), (docA1, (3:ℚ))]).map Prod.fst).Nodup ∧
      ∃ d s, lookupKey "aaaaaaaa_0" (mergeResults [(docA1, (7:ℚ)), (docA1, (3:ℚ))]) = some (d, s) ∧
        mergeKey d = "aaaaaaaa_0" ∧
        (∃ d₁, (d₁, s) ∈ [(docA1, (7:ℚ)), (docA1, (3:ℚ))] ∧ mergeKey d₁ = "aaaaaaaa_0") ∧
        ∀ d₂ s₂, (d₂, s₂) ∈ [(docA1, (7:ℚ)), (docA1, (3:ℚ))] → mergeKey d₂ = "aaaaaaaa_0" →
          s ≤ s₂) :=
  ⟨⟨by decide, by decide⟩,
    merge_dedup_best_score [(docA1, (7:ℚ)), (docA1, (3:ℚ))] "aaaaaaaa_0" docA1 7
      (by decide) (by decide)⟩

/-- Parse the re-ranker reply: split on commas, strip each field, keep the
digit-only fields as numbers (int(x) for each x with x.strip().isdigit()). -/
def parseRanking (response : String) : List Nat :=
  (splitOnChar ',' response.data).filterMap (fun f => digitsToNat (trimChars f))

/-- SearchEngine.rerank_results. The re-ranker LLM reply is the external
input resp; Except.error models the call raising. The reply is stripped
and uppercased before inspection, as in the source, and every failure or
ambiguous-reply path falls back to the similarity-ordered prefix. -/
def rerank_results (resp : Except Unit String) (results : List (Doc × ℚ)) :
    List (Doc × ℚ) :=
  if results.length ≤ Config.SEARCH_K_RERANK then results
  else
    match resp with
    | Except.error _ => results.take Config.SEARCH_K_RERANK
    | Except.ok raw =>
      if upperStr (trimStr raw) = "NONE" ∨ upperStr (trimStr raw) = "" then
        results.take Config.SEARCH_K_RERANK
      else if parseRanking (upperStr (trimStr raw)) = [] then
        results.take Config.SEARCH_K_RERANK
      else if (parseRanking (upperStr (trimStr raw))).filterMap
          (fun idx => results[idx]?) = [] then
        results.take Config.SEARCH_K_RERANK
      else
        ((parseRanking (upperStr (trimStr raw))).filterMap
          (fun idx => results[idx]?)).take Config.SEARCH_K_RERANK

/-- Claim C5: for a candidate list longer than the re-rank cutoff, a
re-ranker reply that is empty, is the NONE sentinel, parses to no numeric
index, contains only out-of-range indices, or raises, makes rerank_results
return the top SEARCH_K_RERANK candidates in the original similarity
order — never an empty list. -/
theorem rerank_results_fallback (resp : Except Unit String) (results : List (Doc × ℚ))
    (hlen : Config.SEARCH_K_RERANK < results.length)
    (hfail :
      resp = Except.error () ∨
      ∃ raw, resp = Except.ok raw ∧
        (upperStr (trimStr raw) = "" ∨ upperStr (trimStr raw) = "NONE" ∨
          parseRanking (upperStr (trimStr raw)) = [] ∨
          ∀ i ∈ parseRanking (upperStr (trimStr raw)), results.length ≤ i)) :
    rerank_results resp results = results.take Config.SEARCH_K_RERANK ∧
    rerank_results resp results ≠ [] := by
  have hnot : ¬ results.length ≤ Config.SEARCH_K_RERANK := not_le.mpr hlen
  have htake : results.take Config.SEARCH_K_RERANK ≠ [] := by
    have hl : (results.take Config.SEARCH_K_RERANK).length = Config.SEARCH_K_RERANK := by
      rw [List.length_take]
      omega
    intro hnil
    rw [hnil] at hl
    simp [Config.SEARCH_K_RERANK] at hl
  suffices heq : rerank_results resp results = results.take Config.SEARCH_K_RERANK by
    exact ⟨heq, heq ▸ htake⟩
  unfold rerank_results
  rw [if_neg hnot]
  rcases hfail with rfl | ⟨raw, rfl, hcase⟩
  · rfl
  · dsimp only
    rcases hcase with hc | hc | hc | hc
    · rw [if_pos (Or.inr hc)]
    · rw [if_pos (Or.inl hc)]
    · by_cases hresp : upperStr (trimStr raw) = "NONE" ∨ upperStr (trimStr raw) = ""
      · rw [if_pos hresp]
      · rw [if_neg hresp, if_pos hc]
    · by_cases hresp : upperStr (trimStr raw) = "NONE" ∨ upperStr (trimStr raw) = ""
      · rw [if_pos hresp]
      · rw [if_neg hresp]
        by_cases hrank : parseRanking (upperStr (trimStr raw)) = []
        · rw [if_pos hrank]
        · rw [if_neg hrank]
          have hrer : (parseRanking (upperStr (trimStr raw))).filterMap
              (fun idx => results[idx]?) = [] := by
            rw [List.filterMap_eq_nil_iff]
            intro i hi
            exact List.getElem?_eq_none (hc i hi)
          rw [if_pos hrer]

/-- Witness for C5: six candidates and the reply NONE fall back to the top
five in similarity order. -/
theorem rerank_results_fallback_witness :
    (Config.SEARCH_K_RERANK <
        (List.replicate 6 ((⟨"x", {}⟩ : Doc), (1 : ℚ))).length) ∧
    (rerank_results (Except.ok "NONE") (List.replicate 6 ((⟨"x", {}⟩ : Doc), (1 : ℚ))) =
        (List.replicate 6 ((⟨"x", {}⟩ : Doc), (1 : ℚ))).take Config.SEARCH_K_RERANK ∧
      rerank_results (Except.ok "NONE") (List.replicate 6 ((⟨"x", {}⟩ : Doc), (1 : ℚ))) ≠ []) :=
  ⟨by decide,
    rerank_results_fallback (Except.ok "NONE") (List.replicate 6 ((⟨"x", {}⟩ : Doc), (1 : ℚ)))
      (by decide)
      (Or.inr ⟨"NONE", rfl, Or.inr (Or.inl (by decide))⟩)⟩

/-- Stable insertion into a list sorted by ascending score: a new element
goes after every element whose score is less than or equal to its own,
matching the stability of Python sorted. -/
def insertByScore (p : Doc × ℚ) : List (Doc × ℚ) → List (Doc × ℚ)
  | [] => [p]
  | q :: t => if q.2 ≤ p.2 then q :: insertByScore p t else p :: q :: t

/-- sorted(all_results.values(), key=score): stable ascending sort. -/
def sortByScore (l : List (Doc × ℚ)) : List (Doc × ℚ) :=
  l.foldl (fun acc p => insertByScore p acc) []

/-- round(x, 3) on a rational. -/
def round3 (q : ℚ) : ℚ := (round (1000 * q) : ℤ) / 1000

/-- The SearchResult formatting at the end of SearchEngine.search:
normalized relevance max(0, 1 - score/100) rounded to three digits,
document name, page and chunk index from metadata with the source
defaults, and a 100-character content preview. -/
def toSearchResult (p : Doc × ℚ) : SearchResult :=
  { content := p.1.page_content
    citation :=
      { document_name := p.1.metadata.original_filename.getD "Unknown"
        page_number := p.1.metadata.page
        chunk_index := p.1.metadata.chunk_index.getD 0
        relevance_score := round3 (max 0 (1 - p.2 / 100))
        content_preview := p.1.page_content.take 100 ++ "..." }
    metadata := p.1.metadata }

/-- SearchEngine.search with its external calls observed: perQuery holds
each expanded query's similarity_search_with_score results and rerankResp
the re-ranker reply (consulted only when more than SEARCH_K_RERANK merged
candidates exist). Candidates are merged with the best score per chunk
key, sorted by ascending distance, re-ranked or truncated, and the top k
formatted. The function carries no tenant identifier anywhere, exactly as
in the source. -/
def searchModel (perQuery : List (List (Doc × ℚ))) (rerankResp : Except Unit String)
    (k : Nat) : List SearchResult :=
  let sorted_results := sortByScore ((mergeResults perQuery.flatten).map Prod.snd)
  let final :=
    if Config.SEARCH_K_RERANK < sorted_results.length then
      rerank_results rerankResp sorted_results
    else
      sorted_results.take Config.SEARCH_K_RERANK
  (final.take k).map toSearchResult

/-- Claim C1 contradicted by the code: search applies no tenant filter —
its output depends only on the store's similarity results, so a store
holding another tenant's chunk returns that chunk to every caller; here a
query made on behalf of tenant org_1 receives org_2's chunk. -/
theorem search_returns_foreign_tenant_chunk :
    ∃ r ∈ searchModel
        [[(⟨"Org B vacation policy: 15 days",
            { doc_id := some "deadbeef", chunk_index := some 0,
              original_filename := some "b_policy.txt",
              source_file := some "uploads/b_policy.txt",
              tenant_id := some "org_2" }⟩, (1 : ℚ))]]
        (Except.ok "") 5,
      r.metadata.tenant_id = some "org_2" ∧ r.metadata.tenant_id ≠ some "org_1" := by
  decide

/-- delete_document as its Chroma effect on the stored chunks: delete
with the filter where source_file == file_path removes every chunk whose
source_file metadata equals the path — no other condition, and the
function accepts no tenant identifier. -/
def delete_document (store : List Doc) (file_path : String) : List Doc :=
  store.filter (fun d => decide (d.metadata.source_file ≠ some file_path))

/-- Claim C4 contradicted by the code: deletion filters on source_file
alone, so deleting a path on behalf of one tenant also removes every
other tenant's chunks carrying that path — the other tenant's chunk does
not survive, violating the frame condition. -/
theorem delete_document_crosses_tenants :
    delete_document
        [⟨"tenant A content",
          { source_file := some "uploads/policy.txt", tenant_id := some "org_1" }⟩,
         ⟨"tenant B content",
          { source_file := some "uploads/policy.txt", tenant_id := some "org_2" }⟩]
        "uploads/policy.txt" = [] ∧
    (⟨"tenant B content",
      { source_file := some "uploads/policy.txt", tenant_id := some "org_2" }⟩ : Doc).metadata.tenant_id ≠
      (⟨"tenant A content",
        { source_file := some "uploads/policy.txt", tenant_id := some "org_1" }⟩ : Doc).metadata.tenant_id := by
  decide

/-! ## ResponseGenerator and the public query entrypoint (C2, C10) -/

/-- The language model as the generator sees it: a blocking invoke and a
fragment stream. -/
structure LLM where
  invoke : String → String
  stream : String → List String

/-- ResponseGenerator.build_context: each result's content under a
numbered citation marker, joined by the block separator, paired with the
citation list. -/
def build_context (results : List SearchResult) : String × List Citation :=
  if results = [] then ("", [])
  else
    (joinWith "\n\n---\n\n"
        (results.enum.map (fun p => "[" ++ toString (p.1 + 1) ++ "] " ++ p.2.content)),
      results.map (·.citation))

/-- ResponseGenerator.build_prompt: fold in the last four conversation
turns, then choose the grounded-answer prompt when the context is
meaningful (nonempty and longer than 50 characters once stripped) and
the not-found prompt otherwise. -/
def build_prompt (query : String) (context : String) (conversation_history : List Turn) :
    String :=
  let conv_context :=
    if conversation_history = [] then ""
    else
      "\n\nRecent conversation:\n" ++
        joinWith "\n"
          ((conversation_history.drop (conversation_history.length - 4)).map
            (fun m => upperStr m.role ++ ": " ++ m.content.take 200))
  if context ≠ "" ∧ 50 < (trimStr context).length then
    "You are a helpful assistant. Your job is to answer questions based ONLY on the provided document context.\n\nIMPORTANT: The context below contains the most relevant information. Use it to answer the question comprehensively and thoroughly.\n\nCONTEXT FROM DOCUMENTS:\n"
      ++ context ++ "\n" ++ conv_context ++ "\n\nQUESTION: " ++ query ++
      "\n\nINSTRUCTIONS:\n- Answer the question using ALL relevant information in the context above\n- Include citation numbers [1], [2], etc. when referencing information\n- Provide a comprehensive answer covering all points and details mentioned in the context\n- If the context contains a list or multiple items, include ALL of them in your answer\n- Be direct, thorough, and complete\n- Do not make up information not in the context\n\nANSWER:"
  else
    "You are a helpful assistant. A user asked a question but the available documents don't contain relevant information to answer it.\n\nQUESTION: "
      ++ query ++
      "\n\nINSTRUCTIONS:\n- Politely explain that the information is not available in the uploaded documents\n- Suggest what type of documents might contain this information\n- Do not make up information\n\nANSWER:"

/-- ResponseGenerator.format_citations: the Sources header followed by
three lines per citation, joined with newlines; empty citation list gives
the empty string. Relevance is int(score*100) (truncation; score is
nonnegative here so a floor) when positive, else 100, and a page line
appears only for a truthy (nonzero) page number. -/
def format_citations (citations : List Citation) : String :=
  if citations = [] then ""
  else
    joinWith "\n"
      ("\n\n📚 **Sources:**" ::
        (citations.enum.map (fun p =>
          ["[" ++ toString (p.1 + 1) ++ "] **" ++ p.2.document_name ++ "**" ++
              (match p.2.page_number with
                | some pn => if pn = 0 then "" else ", Page " ++ toString pn
                | none => "") ++
              " (Relevance: " ++
              toString
                (if 0 < p.2.relevance_score then
                  Int.floor (p.2.relevance_score * 100)
                else 100) ++ "%)",
            "    📄 Preview: " ++ p.2.content_preview,
            "    🔗 [View Document](#view-doc-" ++ toString (p.1 + 1) ++ ")"])).flatten)

/-- ResponseGenerator._generate_response: the blocking answer text with
the citation block appended, tagged "documents". -/
def _generate_response (llm : LLM) (prompt : String) (citations : List Citation) :
    String × String :=
  (llm.invoke prompt ++ format_citations citations, "documents")

/-- ResponseGenerator._stream_response: every model fragment, then the
citation block when nonempty, then the terminal done sentinel. -/
def _stream_response (llm : LLM) (prompt : String) (citations : List Citation) :
    List (String × String × Bool) :=
  ((llm.stream prompt).map (fun c => (c, "documents", false))) ++
    (if format_citations citations = "" then []
      else [(format_citations citations, "documents", false)]) ++
    [("", "documents", true)]

/-- The two shapes ResponseGenerator.generate can return. -/
inductive GenOut where
  | blocking (pair : String × String)
  | streaming (frags : List (String × String × Bool))

/-- ResponseGenerator.generate: build context and prompt, then dispatch on
the stream flag. -/
def generate (llm : LLM) (query : String) (results : List SearchResult)
    (conversation_history : List Turn) (stream : Bool) : GenOut :=
  if stream then
    GenOut.streaming
      (_stream_response llm
        (build_prompt query (build_context results).1 conversation_history)
        (build_context results).2)
  else
    GenOut.blocking
      (_generate_response llm
        (build_prompt query (build_context results).1 conversation_history)
        (build_context results).2)

theorem concatStrings_append (a b : List String) :
    concatStrings (a ++ b) = concatStrings a ++ concatStrings b := by
  induction a with
  | nil => simp [concatStrings]
  | cons s t ih => simp [concatStrings, ih, String.append_assoc]

theorem takeWhile_all_append {α : Type} (p : α → Bool) (xs ys : List α)
    (h : ∀ x ∈ xs, p x = true) :
    (xs ++ ys).takeWhile p = xs ++ ys.takeWhile p := by
  induction xs with
  | nil => simp
  | cons a t ih =>
    have hpa := h a (by simp)
    simp only [List.cons_append, List.takeWhile_cons, hpa, if_pos]
    rw [ih (fun x hx => h x (by simp [hx]))]

/-- Claim C10: with the language model modelled so that its streamed
fragments concatenate to its blocking output, the concatenation of all
fragments the streaming path yields before the terminal done sentinel
equals the answer text the non-streaming path returns, for every fixed
query, evidence set and conversation history. -/
theorem stream_nonstream_equiv (llm : LLM) (query : String)
    (results : List SearchResult) (conversation_history : List Turn)
    (h : ∀ p, concatStrings (llm.stream p) = llm.invoke p) :
    concatStrings
        (((_stream_response llm
              (build_prompt query (build_context results).1 conversation_history)
              (build_context results).2).takeWhile (fun f => !f.2.2)).map (fun f => f.1)) =
      (_generate_response llm
          (build_prompt query (build_context results).1 conversation_history)
          (build_context results).2).1 := by
  generalize build_prompt query (build_context results).1 conversation_history = prompt
  generalize (build_context results).2 = citations
  unfold _stream_response _generate_response
  rw [List.append_assoc]
  have hs1 : ∀ x ∈ (llm.stream prompt).map (fun c => (c, ("documents" : String), false)),
      (!x.2.2) = true := by
    intro x hx
    simp only [List.mem_map] at hx
    obtain ⟨c, _, rfl⟩ := hx
    rfl
  have hs2 : ∀ x ∈ (if format_citations citations = "" then
        ([] : List (String × String × Bool))
      else [(format_citations citations, "documents", false)]),
      (!x.2.2) = true := by
    intro x hx
    by_cases hc : format_citations citations = ""
    · rw [if_pos hc] at hx
      cases hx
    · rw [if_neg hc] at hx
      simp only [List.mem_singleton] at hx
      subst hx
      rfl
  rw [takeWhile_all_append _ _ _ hs1, takeWhile_all_append _ _ _ hs2]
  have hterm : ([(("" : String), ("documents" : String), true)]).takeWhile
      (fun f => !f.2.2) = [] := rfl
  rw [hterm, List.append_nil, List.map_append, concatStrings_append,
    List.map_map]
  have hstream : concatStrings ((llm.stream prompt).map
      ((fun f => f.1) ∘ (fun c => (c, ("documents" : String), false)))) = llm.invoke prompt := by
    have : ((fun (f : String × String × Bool) => f.1) ∘
        (fun c => (c, ("documents" : String), false))) = id := by
      funext c
      rfl
    rw [this, List.map_id]
    exact h prompt
  rw [hstream]
  by_cases hc : format_citations citations = ""
  · rw [if_pos hc, hc]
    rfl
  · rw [if_neg hc]
    show llm.invoke prompt ++ (format_citations citations ++ concatStrings []) =
      llm.invoke prompt ++ format_citations citations
    rw [show concatStrings [] = "" from rfl]
    simp

/-- Witness for C10 with a concrete model whose stream fragments
concatenate to its blocking output. -/
theorem stream_nonstream_equiv_witness :
    (∀ p, concatStrings
        (({ invoke := fun _ => "ANS", stream := fun _ => ["A", "NS"] } : LLM).stream p) =
        ({ invoke := fun _ => "ANS", stream := fun _ => ["A", "NS"] } : LLM).invoke p) ∧
    concatStrings
        (((_stream_response { invoke := fun _ => "ANS", stream := fun _ => ["A", "NS"] }
              (build_prompt "q" (build_context []).1 [])
              (build_context []).2).takeWhile (fun f => !f.2.2)).map (fun f => f.1)) =
      (_generate_response { invoke := fun _ => "ANS", stream := fun _ => ["A", "NS"] }
          (build_prompt "q" (build_context []).1 [])
          (build_context []).2).1 :=
  ⟨fun _ => rfl, stream_nonstream_equiv _ "q" [] [] (fun _ => rfl)⟩

/-- The no-documents message of get_answer_with_fallback. -/
def noDocsMsg : String := "❌ No documents uploaded yet. Please upload documents first."

/-- The no-results message of get_answer_with_fallback. -/
def noResultsMsg : String :=
  "❌ I couldn't find relevant information in the uploaded documents. Try rephrasing your question or upload more documents."

/-- The yielded fragments of a GenOut, as consumed by yield from. -/
def genFrags : GenOut → List (String × String × Bool)
  | GenOut.streaming frags => frags
  | GenOut.blocking _ => []

/-- The pair a GenOut hands to a return statement. -/
def genPair : GenOut → Option (String × String)
  | GenOut.blocking pair => some pair
  | GenOut.streaming _ => none

/-- The body of get_answer_with_fallback as (yielded items, value handed to
return). Because the body contains yield statements, Python compiles the
function to a generator: a call returns a generator object whose
iteration delivers exactly the first component, while a value given to
return is stored on StopIteration and never delivered by iteration.
External observations are parameters: the smalltalk classifier's reply
(some canned response when the query matched), whether the store
directory exists, and the search results for the query. -/
def get_answer_with_fallback (llm : LLM) (smalltalk : Option String) (dbExists : Bool)
    (results : List SearchResult) (query : String) (conversation_history : List Turn)
    (stream : Bool) : List (String × String × Bool) × Option (String × String) :=
  match smalltalk with
  | some resp =>
    if stream then ([(resp, "greeting", true)], none)
    else ([], some (resp, "greeting"))
  | none =>
    if dbExists = false then
      if stream then ([(noDocsMsg, "no_documents", true)], none)
      else ([], some (noDocsMsg, "no_documents"))
    else if results = [] then
      if stream then ([(noResultsMsg, "no_documents", true)], none)
      else ([], some (noResultsMsg, "no_documents"))
    else if stream then
      (genFrags (generate llm query results conversation_history true), none)
    else
      ([], genPair (generate llm query results conversation_history false))

/-- Claim C2 contradicted by the code: get_answer_with_fallback contains
yield statements, so Python makes it a generator function; a call with
stream=False returns a lazily-consumed generator object that yields
nothing at all — every yield sits behind the stream flag — and the
(text, source_tag) pair is stranded in the generator's return slot,
which iteration never delivers. No path of a stream=False call hands the
caller the pair in one ordinary call; in the evidence path the pair in
the return slot is the generated answer with the citation block
appended, confirming the intended value exists but is unreachable. -/
theorem get_answer_nonstream_yields_no_pair (llm : LLM) (smalltalk : Option String)
    (dbExists : Bool) (results : List SearchResult) (query : String)
    (conversation_history : List Turn) :
    (get_answer_with_fallback llm smalltalk dbExists results query
        conversation_history false).1 = [] ∧
    (smalltalk = none → dbExists = true → results ≠ [] →
      (get_answer_with_fallback llm smalltalk dbExists results query
          conversation_history false).2 =
        some
          (llm.invoke
              (build_prompt query (build_context results).1 conversation_history) ++
            format_citations (build_context results).2, "documents")) := by
  constructor
  · unfold get_answer_with_fallback
    cases smalltalk with
    | some resp => rfl
    | none =>
      by_cases hdb : dbExists = false
      · rw [if_pos hdb]
        rfl
      · rw [if_neg hdb]
        by_cases hres : results = []
        · rw [if_pos hres]
          rfl
        · rw [if_neg hres]
          rfl
  · intro hsm hdb hres
    subst hsm
    unfold get_answer_with_fallback
    rw [hdb, if_neg hres]
    rfl

/-- Witness for C2 at a concrete model, query and evidence set: the
stream=False call yields nothing and the intended pair sits in the
unreachable return slot. -/
theorem get_answer_nonstream_yields_no_pair_witness :
    (get_answer_with_fallback { invoke := fun _ => "ANS", stream := fun _ => [] } none true
        [⟨"content", ⟨"doc.txt", none, 0, 0, "prev"⟩, {}⟩] "q" [] false).1 = [] ∧
    (get_answer_with_fallback { invoke := fun _ => "ANS", stream := fun _ => [] } none true
        [⟨"content", ⟨"doc.txt", none, 0, 0, "prev"⟩, {}⟩] "q" [] false).2 =
      some
        (({ invoke := fun _ => "ANS", stream := fun _ => [] } : LLM).invoke
            (build_prompt "q"
              (build_context [⟨"content", ⟨"doc.txt", none, 0, 0, "prev"⟩, {}⟩]).1 []) ++
          format_citations
            (build_context [⟨"content", ⟨"doc.txt", none, 0, 0, "prev"⟩, {}⟩]).2,
          "documents") :=
  ⟨(get_answer_nonstream_yields_no_pair { invoke := fun _ => "ANS", stream := fun _ => [] }
      none true [⟨"content", ⟨"doc.txt", none, 0, 0, "prev"⟩, {}⟩] "q" []).1,
    (get_answer_nonstream_yields_no_pair { invoke := fun _ => "ANS", stream := fun _ => [] }
      none true [⟨"content", ⟨"doc.txt", none, 0, 0, "prev"⟩, {}⟩] "q" []).2
      rfl rfl (List.cons_ne_nil _ _)⟩
